import Mathlib

/-!
# Verification of the no-spam routing and store-and-forward queue engine

A shallow embedding of the core of the `no-spam` push-notification broker:
the SQLite-backed store (`store/sqlite.go`), the router/hub
(`hub/hub.go`), and the webhook connector (`connectors/webhook.go`).

The store is modelled as an explicit relational state (`StoreState`);
every store method becomes a pure function on that state, returning
`Except String _` where the SQL can fail (primary-key violations).
SQL `ORDER BY` clauses are modelled with `List.insertionSort`, a
deterministic refinement of the engine's unspecified tie-breaking.
-/

namespace NoSpam

/-- A row of the `subscriptions` table / `store.Subscriber`. -/
structure Subscriber where
  topic : String
  token : String
  provider : String
  username : String
deriving Repr, DecidableEq

/-- A row of the `messages` table / `store.Message`.
`createdAt` models the `created_at DATETIME DEFAULT CURRENT_TIMESTAMP`
column as a natural number. -/
structure Message where
  id : Int
  topic : String
  payload : String
  createdAt : Nat
deriving Repr, DecidableEq

/-- A raw row of the `queue` table: `(id, message_id, token, status)`. -/
structure QueueRow where
  id : Int
  messageID : Int
  token : String
  status : String
deriving Repr, DecidableEq

/-- `store.QueueItem`: the result shape of the queue queries; `provider`
and `payload` are join products (subscription provider, message payload). -/
structure QueueItem where
  id : Int
  messageID : Int
  token : String
  provider : String
  status : String
  payload : String
deriving Repr, DecidableEq

/-- `store.Notification`: the `\x7b"topic":...,"payload":...\x7d` wire envelope. -/
structure Notification where
  topic : String
  payload : String
deriving Repr, DecidableEq

/-- The relational state of the SQLite store.  `nextMessageId` and
`nextQueueId` model the `AUTOINCREMENT` counters; `now` models
`CURRENT_TIMESTAMP`. -/
structure StoreState where
  topics : List String
  subscriptions : List Subscriber
  messages : List Message
  queue : List QueueRow
  nextMessageId : Int
  nextQueueId : Int
  now : Nat
deriving Repr, DecidableEq

/-- `SQLiteStore.CreateTopic`: `INSERT INTO topics (name) VALUES (?)`;
`name` is the primary key, so a duplicate insert fails. -/
def createTopic (s : StoreState) (name : String) : Except String StoreState :=
  if name ∈ s.topics then
    .error "UNIQUE constraint failed: topics.name"
  else
    .ok { s with topics := s.topics ++ [name] }

/-- `SQLiteStore.TopicExists`. -/
def topicExists (s : StoreState) (name : String) : Bool :=
  s.topics.contains name

/-- `SQLiteStore.ListTopics`. -/
def listTopics (s : StoreState) : List String :=
  s.topics

/-- `SQLiteStore.DeleteTopic`: counts messages for the topic, then
subscriptions; errors with a descriptive message if either is non-zero,
otherwise deletes the topic row (a no-op if the row is absent). -/
def deleteTopic (s : StoreState) (name : String) : Except String StoreState :=
  let msgCount := (s.messages.filter (fun m => m.topic == name)).length
  if msgCount > 0 then
    .error ("cannot delete topic: has " ++ toString msgCount ++ " messages")
  else
    let subCount := (s.subscriptions.filter (fun r => r.topic == name)).length
    if subCount > 0 then
      .error ("cannot delete topic: has " ++ toString subCount ++ " subscribers")
    else
      .ok { s with topics := s.topics.filter (fun t => t != name) }

/-- `SQLiteStore.AddSubscription`: plain `INSERT INTO subscriptions`;
the primary key is `(topic, token)`, so reinserting an existing pair
fails with a wrapped UNIQUE-constraint error. -/
def addSubscription (s : StoreState) (topic token provider username : String) :
    Except String StoreState :=
  if s.subscriptions.any (fun r => r.topic == topic && r.token == token) then
    .error "failed to subscribe: UNIQUE constraint failed: subscriptions.topic, subscriptions.token"
  else
    .ok { s with subscriptions := s.subscriptions ++ [⟨topic, token, provider, username⟩] }

/-- `SQLiteStore.RemoveSubscription`. -/
def removeSubscription (s : StoreState) (topic token : String) : StoreState :=
  { s with subscriptions :=
      s.subscriptions.filter (fun r => !(r.topic == topic && r.token == token)) }

/-- `SQLiteStore.ClearTopicSubscribers`. -/
def clearTopicSubscribers (s : StoreState) (topic : String) : StoreState :=
  { s with subscriptions := s.subscriptions.filter (fun r => !(r.topic == topic)) }

/-- `SQLiteStore.GetSubscribers`: `SELECT ... FROM subscriptions WHERE topic = ?`. -/
def getSubscribers (s : StoreState) (topic : String) : List Subscriber :=
  s.subscriptions.filter (fun r => r.topic == topic)

/-- `SQLiteStore.GetSubscriptionCount`. -/
def getSubscriptionCount (s : StoreState) : Int :=
  s.subscriptions.length

/-- `SQLiteStore.SaveMessage`: inserts a message with a fresh
autoincrement id and `created_at = CURRENT_TIMESTAMP`, returning the id. -/
def saveMessage (s : StoreState) (topic payload : String) : Int × StoreState :=
  (s.nextMessageId,
   { s with
       messages := s.messages ++ [⟨s.nextMessageId, topic, payload, s.now⟩],
       nextMessageId := s.nextMessageId + 1 })

/-- Descending `created_at` order used by `GetRecentMessages`'s
`ORDER BY created_at DESC`. -/
def msgGE (a b : Message) : Prop := b.createdAt ≤ a.createdAt

instance : DecidableRel msgGE := fun a b => Nat.decLe b.createdAt a.createdAt

instance : IsTotal Message msgGE := ⟨fun a b => Nat.le_total b.createdAt a.createdAt⟩

instance : IsTrans Message msgGE := ⟨fun _ _ _ h1 h2 => Nat.le_trans h2 h1⟩

/-- `SQLiteStore.GetRecentMessages`: fetches the newest `limit` messages
(`ORDER BY created_at DESC LIMIT ?`), then reverses in Go to return them
oldest-first. -/
def getRecentMessages (s : StoreState) (topic : String) (limit : Nat) : List Message :=
  ((((s.messages.filter (fun m => m.topic == topic)).insertionSort msgGE).take limit)).reverse

/-- `SQLiteStore.ClearTopicMessages`: one transaction that first deletes
the queue rows whose `message_id` belongs to a message of the topic
(the subquery runs against the pre-deletion messages), then deletes
those messages. -/
def clearTopicMessages (s : StoreState) (topic : String) : StoreState :=
  { s with
      queue := s.queue.filter (fun q =>
        !(s.messages.any (fun m => m.topic == topic && m.id == q.messageID))),
      messages := s.messages.filter (fun m => !(m.topic == topic)) }

/-- `SQLiteStore.EnqueueMessage`: inserts a `'pending'` queue row with a
fresh autoincrement id, returning the id. -/
def enqueueMessage (s : StoreState) (messageID : Int) (token : String) : Int × StoreState :=
  (s.nextQueueId,
   { s with
       queue := s.queue ++ [⟨s.nextQueueId, messageID, token, "pending"⟩],
       nextQueueId := s.nextQueueId + 1 })

/-- The three-way join of `GetAllPendingMessages`, keyed by the source
message's `created_at` (the `ORDER BY` column):
`queue JOIN messages ON q.message_id = m.id JOIN subscriptions ON q.token = sub.token
WHERE q.status = 'pending'`. -/
def pendingJoinRows (s : StoreState) : List (Nat × QueueItem) :=
  s.queue.flatMap fun q =>
    s.messages.flatMap fun m =>
      s.subscriptions.flatMap fun sub =>
        if q.messageID == m.id && q.token == sub.token && q.status == "pending" then
          [(m.createdAt, ⟨q.id, q.messageID, q.token, sub.provider, q.status, m.payload⟩)]
        else
          []

/-- Ascending `created_at` order on the joined rows (`ORDER BY m.created_at ASC`). -/
def rowLE (a b : Nat × QueueItem) : Prop := a.1 ≤ b.1

instance : DecidableRel rowLE := fun a b => Nat.decLe a.1 b.1

instance : IsTotal (Nat × QueueItem) rowLE := ⟨fun a b => Nat.le_total a.1 b.1⟩

instance : IsTrans (Nat × QueueItem) rowLE := ⟨fun _ _ _ h1 h2 => Nat.le_trans h1 h2⟩

/-- `SQLiteStore.GetAllPendingMessages`: the join above, sorted by the
source message's `created_at` ascending. -/
def getAllPendingMessages (s : StoreState) : List QueueItem :=
  ((pendingJoinRows s).insertionSort rowLE).map Prod.snd

/-- The per-row effect of `UPDATE queue SET status = 'delivered' WHERE id = ?`. -/
def markRow (queueID : Int) (r : QueueRow) : QueueRow :=
  if r.id == queueID then { r with status := "delivered" } else r

/-- `SQLiteStore.MarkDelivered`: `UPDATE queue SET status = 'delivered' WHERE id = ?`. -/
def markDelivered (s : StoreState) (queueID : Int) : StoreState :=
  { s with queue := s.queue.map (markRow queueID) }

/-- `SQLiteStore.GetTotalMessagesSent`: `SELECT count(*) FROM messages`.
`fail` models a database error; on the error path the scanned count
keeps its zero value, matching the Go `(0, err)` return. -/
def getTotalMessagesSentR (s : StoreState) (fail : Bool) : Int × Option String :=
  if fail then (0, some "database error") else (s.messages.length, none)

/-- `SQLiteStore.GetSubscriptionCount` with its error component
(`(0, err)` on a failing store). -/
def getSubscriptionCountR (s : StoreState) (fail : Bool) : Int × Option String :=
  if fail then (0, some "database error") else (s.subscriptions.length, none)

/-! ## Go `encoding/json` marshaling of the notification envelope

`Hub.Route` wraps broadcast payloads with
`json.Marshal(store.Notification\x7bTopic, Payload\x7d)`.  `Payload` is a
`json.RawMessage`, which Go embeds through `appendCompact` with
`escapeHTML = true`: JSON-insignificant whitespace outside string
literals is dropped, and `<`, `>`, `&` (and U+2028/U+2029) are escaped.
The model below covers the valid-JSON payloads the HTTP handlers hand
to the hub (Go errors out on invalid raw messages). -/

/-- Lowercase hex digit, as Go's `encoding/json` hex table. -/
def hexDigit (n : Nat) : Char :=
  if n < 10 then Char.ofNat (48 + n) else Char.ofNat (87 + n)

/-- The six-character escape `\u00XX` Go emits for `<`, `>`, `&` and
control characters. -/
def escU00 (c : Char) : List Char :=
  ['\\', 'u', '0', '0', hexDigit (c.toNat / 16), hexDigit (c.toNat % 16)]

/-- Go's `appendCompact` over the raw payload characters.  `inStr` is
the scanner's in-string-literal state, `esc` records a pending backslash
escape inside a string. -/
def goCompactChars : Bool → Bool → List Char → List Char
  | _, _, [] => []
  | inStr, esc, c :: rest =>
    let tail :=
      if inStr then
        if esc then goCompactChars true false rest
        else if c == '\\' then goCompactChars true true rest
        else if c == '"' then goCompactChars false false rest
        else goCompactChars true false rest
      else
        if c == '"' then goCompactChars true false rest
        else goCompactChars false false rest
    if c == '<' || c == '>' || c == '&' then escU00 c ++ tail
    else if c.toNat == 0x2028 || c.toNat == 0x2029 then
      ['\\', 'u', '2', '0', '2', hexDigit (c.toNat % 16)] ++ tail
    else if !inStr && (c == ' ' || c == '\t' || c == '\n' || c == '\r') then tail
    else c :: tail

/-- Go's JSON compaction with HTML escaping, as applied to a
`json.RawMessage` embedded by `json.Marshal`. -/
def goCompact (s : String) : String :=
  String.mk (goCompactChars false false s.data)

/-- Go's JSON string-encoding of one character (escapeHTML = true). -/
def goQuoteChar (c : Char) : List Char :=
  if c == '"' then ['\\', '"']
  else if c == '\\' then ['\\', '\\']
  else if c == '\n' then ['\\', 'n']
  else if c == '\r' then ['\\', 'r']
  else if c == '\t' then ['\\', 't']
  else if c == '<' || c == '>' || c == '&' then escU00 c
  else if c.toNat < 0x20 then escU00 c
  else if c.toNat == 0x2028 || c.toNat == 0x2029 then
    ['\\', 'u', '2', '0', '2', hexDigit (c.toNat % 16)]
  else [c]

/-- Go's JSON encoding of a string value. -/
def goQuote (s : String) : String :=
  "\"" ++ String.mk (s.data.flatMap goQuoteChar) ++ "\""

/-- `json.Marshal(store.Notification\x7bTopic: t, Payload: p\x7d)`: fields in
declaration order under their `json` tags, the raw payload compacted. -/
def goMarshalNotification (topic payload : String) : String :=
  "\x7b\"topic\":" ++ goQuote topic ++ ",\"payload\":" ++ goCompact payload ++ "\x7d"

/-! ## The hub (router) -/

/-- A connector's `Send` operation: `none` models a `nil` error
(success), `some e` a send error. -/
def Connector := String → String → Option String

/-- The hub's name-keyed connector registry (`Hub.connectors`). -/
def Registry := String → Option Connector

def emptyRegistry : Registry := fun _ => none

/-- `Hub.RegisterConnector` (overwrite-allowed). -/
def registerConnector (reg : Registry) (name : String) (c : Connector) : Registry :=
  fun n => if n == name then some c else reg n

/-- `Hub.GetConnector`. -/
def getConnector (reg : Registry) (name : String) : Option Connector :=
  reg name

/-- `hub.Message`: the routing request. -/
structure HubMessage where
  token : String
  provider : String
  topic : String
  payload : String
deriving Repr, DecidableEq

/-- A best-effort delivery attempt the hub schedules (the goroutine
spawned by `attemptDelivery`): subscriber, payload bytes handed to the
connector, and the queue id to mark on success. -/
structure Attempt where
  sub : Subscriber
  payload : String
  queueId : Int
deriving Repr, DecidableEq

/-- One iteration's data for the shared enqueue-then-attempt loop. -/
structure Fanout where
  mid : Int
  sub : Subscriber
  payload : String
deriving Repr, DecidableEq

/-- The enqueue loop shared by `Route`'s broadcast fan-out and the
replay goroutine of `Subscribe`: `EnqueueMessage`, then record the
delivery attempt (`EnqueueMessage` cannot fail in this model; on
failure the source just logs and continues). -/
def enqueueFanout (s : StoreState) (xs : List Fanout) : StoreState × List Attempt :=
  xs.foldl (fun acc f =>
    let r := enqueueMessage acc.1 f.mid f.sub.token
    (r.2, acc.2 ++ [⟨f.sub, f.payload, r.1⟩])) (s, [])

/-- `hub.ErrTopicNotFound`. -/
def errTopicNotFound : String := "topic not found"

/-- The observable outcome of a successful `Hub.Route`: either the
broadcast path (new store state plus scheduled attempts) or the direct
path (the token and payload handed synchronously to the connector). -/
inductive RouteResult where
  | broadcast (s : StoreState) (attempts : List Attempt)
  | direct (token : String) (payload : String)
deriving Repr

/-- `Hub.Route`.  Broadcast (`msg.topic ≠ ""`): check the topic, wrap
the payload in the envelope, save it, fan out one pending queue item per
subscriber and schedule a delivery attempt for each.  Direct: look up
the connector, require a token, send synchronously (no persistence). -/
def route (reg : Registry) (s : StoreState) (msg : HubMessage) :
    Except String RouteResult :=
  if msg.topic != "" then
    if !(topicExists s msg.topic) then .error errTopicNotFound
    else
      let wrapped := goMarshalNotification msg.topic msg.payload
      let r := saveMessage s msg.topic wrapped
      let subs := getSubscribers r.2 msg.topic
      if subs.isEmpty then .ok (.broadcast r.2 [])
      else
        let r2 := enqueueFanout r.2 (subs.map fun sub => ⟨r.1, sub, wrapped⟩)
        .ok (.broadcast r2.1 r2.2)
  else
    match getConnector reg msg.provider with
    | none => .error ("connector not found for provider: " ++ msg.provider)
    | some c =>
      if msg.token == "" then .error "target token is required for direct message"
      else
        match c msg.token msg.payload with
        | none => .ok (.direct msg.token msg.payload)
        | some e => .error e

/-- The store state after a `Route` call: unchanged on the direct path
and on every error path (all of which return before any write). -/
def runRoute (reg : Registry) (s : StoreState) (msg : HubMessage) : StoreState :=
  match route reg s msg with
  | .ok (.broadcast s2 _) => s2
  | _ => s

/-- `Hub.attemptDelivery`: look up the connector for the subscriber's
provider (skip if missing); send; on a `nil` error mark delivered,
otherwise leave the item untouched. -/
def attemptDelivery (reg : Registry) (s : StoreState) (sub : Subscriber)
    (payload : String) (queueID : Int) : StoreState :=
  match getConnector reg sub.provider with
  | none => s
  | some c =>
    match c sub.token payload with
    | none => markDelivered s queueID
    | some _ => s

/-- One iteration of the `processQueue` loop: look up the item's
connector (log-and-skip if missing), send, mark delivered exactly on
send success. -/
def processStep (reg : Registry) (st : StoreState) (item : QueueItem) : StoreState :=
  match getConnector reg item.provider with
  | none => st
  | some c =>
    match c item.token item.payload with
    | some _ => st
    | none => markDelivered st item.id

/-- `Hub.processQueue`: load all pending items once, then run the loop. -/
def processQueue (reg : Registry) (s : StoreState) : StoreState :=
  (getAllPendingMessages s).foldl (processStep reg) s

/-- `Hub.Subscribe`, with the result of the `GetRecentMessages` replay
lookup passed explicitly so that a failing lookup can be modelled: the
source logs such a failure and still returns success.  An `.error`
return leaves the store unchanged (the failed `INSERT` writes nothing). -/
def subscribeAux (s : StoreState) (topic : String) (sub : Subscriber)
    (replay : Except String (List Message)) :
    Except String (StoreState × List Attempt) :=
  if !(topicExists s topic) then .error errTopicNotFound
  else
    match addSubscription s topic sub.token sub.provider sub.username with
    | .error e => .error e
    | .ok s1 =>
      match replay with
      | .error _ => .ok (s1, [])
      | .ok msgs =>
        let r := enqueueFanout s1 (msgs.map fun m => ⟨m.id, sub, m.payload⟩)
        .ok (r.1, r.2)

/-- `Hub.Subscribe` with a healthy store: the replay lookup returns the
20 most recent messages (`AddSubscription` leaves `messages` unchanged,
so reading them from `s` equals reading them after the insert). -/
def subscribe (s : StoreState) (topic : String) (sub : Subscriber) :
    Except String (StoreState × List Attempt) :=
  subscribeAux s topic sub (.ok (getRecentMessages s topic 20))

/-- The store state after a `Subscribe` call (unchanged on error: both
error returns happen before any successful write). -/
def runSubscribe (s : StoreState) (topic : String) (sub : Subscriber) : StoreState :=
  match subscribe s topic sub with
  | .ok r => r.1
  | .error _ => s

/-- `Hub.GetTotalMessagesSent`: `count, _ := h.store.GetTotalMessagesSent();
return count` — the error is dropped. -/
def hubGetTotalMessagesSent (res : Int × Option String) : Int :=
  res.1

/-- `Hub.GetSubscriptionCount`: same error-dropping passthrough. -/
def hubGetSubscriptionCount (res : Int × Option String) : Int :=
  res.1

/-! ## The webhook connector -/

/-- `WebhookConnector.Send`.  `parsed` is the outcome of
`json.Unmarshal(payload, &notif)` (`some notif` exactly when `err == nil`),
and `post` models the HTTP layer: `.error ()` is a transport failure,
`.ok code` a completed POST with that status code.  The first component
of the result is the body handed to the POST (if one was attempted). -/
def webhookBody (payload : String) (parsed : Option Notification) : String :=
  match parsed with
  | some notif => if notif.payload.length > 0 then notif.payload else payload
  | none => payload

def webhookSend (url payload : String) (parsed : Option Notification)
    (post : String → String → Except Unit Nat) :
    Option String × Except String Unit :=
  if url == "" then (none, .error "webhook url is missing")
  else
    let body := webhookBody payload parsed
    match post url body with
    | .error _ => (some body, .error "failed to send to webhook")
    | .ok code =>
      if code < 200 || code ≥ 300 then
        (some body, .error ("webhook failed with status: " ++ toString code))
      else (some body, .ok ())

/-! ## Mutating operations, for system-wide invariants -/

/-- Every mutating operation of the modelled store and hub. -/
inductive Op where
  | createTopic (name : String)
  | deleteTopic (name : String)
  | addSubscription (topic token provider username : String)
  | removeSubscription (topic token : String)
  | clearTopicSubscribers (topic : String)
  | saveMessage (topic payload : String)
  | clearTopicMessages (topic : String)
  | enqueueMessage (messageID : Int) (token : String)
  | markDelivered (queueID : Int)
  | route (reg : Registry) (msg : HubMessage)
  | subscribe (topic : String) (sub : Subscriber)
  | attemptDelivery (reg : Registry) (sub : Subscriber) (payload : String) (queueID : Int)
  | processQueue (reg : Registry)

/-- The store state after running an operation (fallible operations
leave the state unchanged on error, as their SQL writes nothing then). -/
def applyOp (op : Op) (s : StoreState) : StoreState :=
  match op with
  | .createTopic name => match createTopic s name with | .ok t => t | .error _ => s
  | .deleteTopic name => match deleteTopic s name with | .ok t => t | .error _ => s
  | .addSubscription topic token provider username =>
      match addSubscription s topic token provider username with
      | .ok t => t | .error _ => s
  | .removeSubscription topic token => removeSubscription s topic token
  | .clearTopicSubscribers topic => clearTopicSubscribers s topic
  | .saveMessage topic payload => (saveMessage s topic payload).2
  | .clearTopicMessages topic => clearTopicMessages s topic
  | .enqueueMessage messageID token => (enqueueMessage s messageID token).2
  | .markDelivered queueID => markDelivered s queueID
  | .route reg msg => runRoute reg s msg
  | .subscribe topic sub => runSubscribe s topic sub
  | .attemptDelivery reg sub payload queueID => attemptDelivery reg s sub payload queueID
  | .processQueue reg => processQueue reg s

/-- A queue status can only stay put or move from pending to delivered. -/
def statusStep (a b : String) : Prop :=
  a = b ∨ (a = "pending" ∧ b = "delivered")

/-- Well-formedness of the queue table in every reachable state: statuses
are `pending` or `delivered`, ids are distinct, and all ids are below the
autoincrement counter. -/
def WFQueue (s : StoreState) : Prop :=
  (∀ r ∈ s.queue, r.status = "pending" ∨ r.status = "delivered") ∧
  (s.queue.map QueueRow.id).Nodup ∧
  (∀ r ∈ s.queue, r.id < s.nextQueueId)

instance decidableWFQueue (s : StoreState) : Decidable (WFQueue s) := by
  unfold WFQueue
  infer_instance

/-- Between two states, every surviving queue row's status moved only
forward (pending → delivered, never back). -/
def onlyForward (s t : StoreState) : Prop :=
  ∀ r ∈ s.queue, ∀ r' ∈ t.queue, r.id = r'.id → statusStep r.status r'.status

/-- The connector send for a queue item returns success (`nil`). -/
def sendOk (reg : Registry) (item : QueueItem) : Prop :=
  ∃ c, getConnector reg item.provider = some c ∧ c item.token item.payload = none

/-! ## Example states -/

/-- A fresh, empty store. -/
def emptyStore : StoreState := ⟨[], [], [], [], 1, 1, 0⟩

/-- Topic `t` with one existing subscription `(t, d)`. -/
def exDupState : StoreState := ⟨["t"], [⟨"t", "d", "mock", "u"⟩], [], [], 1, 1, 0⟩

/-- Topic `news` with one existing subscription `(news, tok1)` and no messages. -/
def exC5State : StoreState := ⟨["news"], [⟨"news", "tok1", "mock", "alice"⟩], [], [], 1, 1, 0⟩

/-- One pending queue item whose token `d` holds subscriptions to two
topics (`a` via provider `mock` and `b` via provider `web`). -/
def exC3State : StoreState :=
  ⟨["a", "b"], [⟨"a", "d", "mock", "u"⟩, ⟨"b", "d", "web", "u"⟩],
   [⟨1, "a", "payloadA", 5⟩], [⟨1, 1, "d", "pending"⟩], 2, 2, 9⟩

/-- Topic `t`, no subscribers, for routing a payload with interior whitespace. -/
def exC7State : StoreState := ⟨["t"], [], [], [], 1, 1, 0⟩

/-- Topic `r` with two persisted messages and no subscribers yet. -/
def exReplayState : StoreState :=
  ⟨["r"], [], [⟨1, "r", "m1", 1⟩, ⟨2, "r", "m2", 2⟩], [], 3, 1, 5⟩

/-- Two topics with one message and one pending queue item each. -/
def exC9State : StoreState :=
  ⟨["a", "b"], [⟨"a", "d", "mock", "u"⟩],
   [⟨1, "a", "pa", 1⟩, ⟨2, "b", "pb", 2⟩],
   [⟨1, 1, "d", "pending"⟩, ⟨2, 2, "d", "pending"⟩], 3, 3, 5⟩

/-! ## The shape of the enqueue loops -/

/-- The queue rows an enqueue loop appends, starting at autoincrement id `qid`. -/
def fanoutRows (qid : Int) : List Fanout → List QueueRow
  | [] => []
  | f :: rest => ⟨qid, f.mid, f.sub.token, "pending"⟩ :: fanoutRows (qid + 1) rest

/-- The delivery attempts an enqueue loop schedules, starting at id `qid`. -/
def fanoutAtts (qid : Int) : List Fanout → List Attempt
  | [] => []
  | f :: rest => ⟨f.sub, f.payload, qid⟩ :: fanoutAtts (qid + 1) rest

theorem enqueueFanout_fold (xs : List Fanout) (s : StoreState) (acc : List Attempt) :
    xs.foldl (fun acc f =>
        let r := enqueueMessage acc.1 f.mid f.sub.token
        (r.2, acc.2 ++ [⟨f.sub, f.payload, r.1⟩])) (s, acc) =
      ({ s with queue := s.queue ++ fanoutRows s.nextQueueId xs,
                nextQueueId := s.nextQueueId + xs.length },
       acc ++ fanoutAtts s.nextQueueId xs) := by
  induction xs generalizing s acc with
  | nil =>
      simp [fanoutRows, fanoutAtts]
  | cons f rest ih =>
      simp only [List.foldl_cons]
      rw [ih]
      cases s with
      | mk topics subscriptions messages queue nmi nqi now =>
          simp only [enqueueMessage, fanoutRows, fanoutAtts, StoreState.mk.injEq,
            Prod.mk.injEq, List.append_assoc, List.singleton_append, List.length_cons,
            true_and, and_true]
          push_cast
          ring

theorem enqueueFanout_spec (s : StoreState) (xs : List Fanout) :
    enqueueFanout s xs =
      ({ s with queue := s.queue ++ fanoutRows s.nextQueueId xs,
                nextQueueId := s.nextQueueId + xs.length },
       fanoutAtts s.nextQueueId xs) := by
  unfold enqueueFanout
  rw [enqueueFanout_fold]
  simp

theorem fanoutRows_map_triple (qid : Int) (xs : List Fanout) :
    (fanoutRows qid xs).map (fun r => (r.messageID, r.token, r.status)) =
      xs.map (fun f => (f.mid, f.sub.token, "pending")) := by
  induction xs generalizing qid with
  | nil => rfl
  | cons f rest ih => simp [fanoutRows, ih]

theorem fanoutRows_id_ge (qid : Int) (xs : List Fanout) :
    ∀ r ∈ fanoutRows qid xs, qid ≤ r.id := by
  induction xs generalizing qid with
  | nil => intro r hr; cases hr
  | cons f rest ih =>
      intro r hr
      rcases List.mem_cons.mp hr with h | h
      · subst h; exact le_refl _
      · have := ih (qid + 1) r h
        omega

theorem fanoutRows_pending (qid : Int) (xs : List Fanout) :
    ∀ r ∈ fanoutRows qid xs, r.status = "pending" := by
  induction xs generalizing qid with
  | nil => intro r hr; cases hr
  | cons f rest ih =>
      intro r hr
      rcases List.mem_cons.mp hr with h | h
      · subst h; rfl
      · exact ih (qid + 1) r h

theorem fanoutRows_pairwise_lt (qid : Int) (xs : List Fanout) :
    (fanoutRows qid xs).Pairwise (fun a b => a.id < b.id) := by
  induction xs generalizing qid with
  | nil => exact List.Pairwise.nil
  | cons f rest ih =>
      refine List.Pairwise.cons ?_ (ih (qid + 1))
      intro r hr
      have h2 := fanoutRows_id_ge (qid + 1) rest r hr
      show qid < r.id
      omega

theorem fanoutAtts_map_pair (qid : Int) (xs : List Fanout) :
    (fanoutAtts qid xs).map (fun a => (a.sub, a.payload)) =
      xs.map (fun f => (f.sub, f.payload)) := by
  induction xs generalizing qid with
  | nil => rfl
  | cons f rest ih => simp [fanoutAtts, ih]

theorem fanoutAtts_mem_payload (qid : Int) (xs : List Fanout) :
    ∀ a ∈ fanoutAtts qid xs, ∃ f ∈ xs, a.payload = f.payload := by
  induction xs generalizing qid with
  | nil => intro a ha; cases ha
  | cons f rest ih =>
      intro a ha
      rcases List.mem_cons.mp ha with h | h
      · exact ⟨f, List.mem_cons_self f rest, by rw [h]⟩
      · obtain ⟨g, hg, hp⟩ := ih (qid + 1) a h
        exact ⟨g, List.mem_cons_of_mem f hg, hp⟩

/-- `GetRecentMessages` returns its window in chronological
(non-decreasing `created_at`) order. -/
theorem getRecentMessages_sorted (s : StoreState) (topic : String) (limit : Nat) :
    List.Pairwise (fun a b : Message => a.createdAt ≤ b.createdAt)
      (getRecentMessages s topic limit) := by
  unfold getRecentMessages
  refine List.pairwise_reverse.mpr ?_
  exact (List.sorted_insertionSort msgGE _).sublist (List.take_sublist _ _)

/-- Membership in the three-way join underlying `GetAllPendingMessages`. -/
theorem mem_pendingJoinRows {s : StoreState} {p : Nat × QueueItem} :
    p ∈ pendingJoinRows s ↔
      ∃ q ∈ s.queue, ∃ m ∈ s.messages, ∃ sub ∈ s.subscriptions,
        q.messageID = m.id ∧ q.token = sub.token ∧ q.status = "pending" ∧
        p = (m.createdAt,
          ⟨q.id, q.messageID, q.token, sub.provider, q.status, m.payload⟩) := by
  constructor
  · intro hp
    simp only [pendingJoinRows, List.mem_flatMap] at hp
    obtain ⟨q, hq, m, hm, sub, hsub, hp⟩ := hp
    by_cases hc : (q.messageID == m.id && q.token == sub.token && q.status == "pending") = true
    · rw [if_pos hc] at hp
      simp only [List.mem_singleton] at hp
      simp only [Bool.and_eq_true, beq_iff_eq] at hc
      exact ⟨q, hq, m, hm, sub, hsub, hc.1.1, hc.1.2, hc.2, hp⟩
    · rw [if_neg hc] at hp
      cases hp
  · rintro ⟨q, hq, m, hm, sub, hsub, h1, h2, h3, hp⟩
    simp only [pendingJoinRows, List.mem_flatMap]
    refine ⟨q, hq, m, hm, sub, hsub, ?_⟩
    rw [if_pos (by simp [h1, h2, h3])]
    simp [hp]

/-! ## Queue-status invariant machinery -/

theorem statusStep_refl (a : String) : statusStep a a :=
  Or.inl rfl

theorem markRow_id (qid : Int) (r : QueueRow) : (markRow qid r).id = r.id := by
  unfold markRow
  split <;> rfl

theorem markRow_messageID (qid : Int) (r : QueueRow) :
    (markRow qid r).messageID = r.messageID := by
  unfold markRow
  split <;> rfl

theorem markRow_status (qid : Int) (r : QueueRow) :
    (markRow qid r).status = r.status ∨ (markRow qid r).status = "delivered" := by
  unfold markRow
  split
  · right; rfl
  · left; rfl

theorem onlyForward_subset {s t : StoreState} (hwf : WFQueue s)
    (h : ∀ r ∈ t.queue, r ∈ s.queue) : onlyForward s t := by
  intro r hr r' hr' hid
  have he := List.inj_on_of_nodup_map hwf.2.1 hr (h r' hr') hid
  rw [he]
  exact statusStep_refl _

theorem onlyForward_append {s t : StoreState} {extra : List QueueRow} (hwf : WFQueue s)
    (h : t.queue = s.queue ++ extra) (hex : ∀ r ∈ extra, s.nextQueueId ≤ r.id) :
    onlyForward s t := by
  intro r hr r' hr' hid
  rw [h] at hr'
  rcases List.mem_append.mp hr' with h1 | h1
  · have he := List.inj_on_of_nodup_map hwf.2.1 hr h1 hid
    rw [he]
    exact statusStep_refl _
  · exfalso
    have h2 := hex r' h1
    have h3 := hwf.2.2 r hr
    omega

theorem onlyForward_markDelivered {s : StoreState} (hwf : WFQueue s) (qid : Int) :
    onlyForward s (markDelivered s qid) := by
  intro r hr r' hr' hid
  simp only [markDelivered, List.mem_map] at hr'
  obtain ⟨r2, hr2, he⟩ := hr'
  have hid2 : r'.id = r2.id := by
    rw [← he]
    exact markRow_id qid r2
  have heq : r = r2 := List.inj_on_of_nodup_map hwf.2.1 hr hr2 (by omega)
  subst heq
  rcases markRow_status qid r with h2 | h2
  · rw [← he, h2]
    exact statusStep_refl _
  · rw [← he, h2]
    rcases hwf.1 r hr with h3 | h3
    · exact Or.inr ⟨h3, rfl⟩
    · exact Or.inl h3

/-- Each `processQueue` iteration either leaves the state alone or marks
the current item delivered; the second disjunct records the successful
send. -/
theorem processStep_cases (reg : Registry) (st : StoreState) (item : QueueItem) :
    processStep reg st item = st ∨
      (processStep reg st item = markDelivered st item.id ∧ sendOk reg item) := by
  cases hg : getConnector reg item.provider with
  | none =>
      refine Or.inl ?_
      simp [processStep, hg]
  | some c =>
      cases hs : c item.token item.payload with
      | some e =>
          refine Or.inl ?_
          simp [processStep, hg, hs]
      | none =>
          refine Or.inr ⟨?_, c, hg, hs⟩
          simp [processStep, hg, hs]

/-- The queue after any run of `processQueue` iterations is a pointwise
transform of the starting queue: ids, message ids and tokens are kept,
statuses are kept or set to `delivered`; the autoincrement counter and
the non-queue tables are untouched. -/
theorem processFold_shape (reg : Registry) (items : List QueueItem) (s : StoreState) :
    ∃ g : QueueRow → QueueRow,
      (items.foldl (processStep reg) s).queue = s.queue.map g ∧
      (∀ r, (g r).id = r.id) ∧
      (∀ r, (g r).status = r.status ∨ (g r).status = "delivered") ∧
      (items.foldl (processStep reg) s).nextQueueId = s.nextQueueId := by
  induction items generalizing s with
  | nil =>
      refine ⟨id, by simp, fun r => rfl, fun r => Or.inl rfl, rfl⟩
  | cons item rest ih =>
      simp only [List.foldl_cons]
      rcases processStep_cases reg s item with h | ⟨h, _⟩
      · rw [h]
        exact ih s
      · rw [h]
        obtain ⟨g, hq, hgid, hgs, hnq⟩ := ih (markDelivered s item.id)
        refine ⟨fun r => g (markRow item.id r), ?_, ?_, ?_, hnq⟩
        · rw [hq]
          simp only [markDelivered, List.map_map]
          rfl
        · intro r
          rw [hgid, markRow_id]
        · intro r
          rcases hgs (markRow item.id r) with h2 | h2
          · rcases markRow_status item.id r with h3 | h3
            · exact Or.inl (h2.trans h3)
            · exact Or.inr (h2.trans h3)
          · exact Or.inr h2

theorem onlyForward_processQueue {s : StoreState} (hwf : WFQueue s) (reg : Registry) :
    onlyForward s (processQueue reg s) := by
  obtain ⟨g, hq, hgid, hgs, _⟩ := processFold_shape reg (getAllPendingMessages s) s
  intro r hr r' hr' hid
  unfold processQueue at hr'
  rw [hq] at hr'
  obtain ⟨r2, hr2, he⟩ := List.mem_map.mp hr'
  have hid2 : r'.id = r2.id := by
    rw [← he]
    exact hgid r2
  have heq : r = r2 := List.inj_on_of_nodup_map hwf.2.1 hr hr2 (by omega)
  subst heq
  rcases hgs r with h2 | h2
  · rw [← he, h2]
    exact statusStep_refl _
  · rw [← he, h2]
    rcases hwf.1 r hr with h3 | h3
    · exact Or.inr ⟨h3, rfl⟩
    · exact Or.inl h3

/-- A successfully sent item is delivered in the state `processQueue`
leaves behind. -/
theorem processFold_marks (reg : Registry) (items : List QueueItem) (s : StoreState) :
    ∀ item ∈ items, sendOk reg item →
      ∀ r' ∈ (items.foldl (processStep reg) s).queue, r'.id = item.id →
        r'.status = "delivered" := by
  induction items generalizing s with
  | nil =>
      intro item h
      cases h
  | cons it rest ih =>
      intro item hmem hok r' hr' hid
      simp only [List.foldl_cons] at hr'
      rcases List.mem_cons.mp hmem with rfl | hmem2
      · obtain ⟨c, hg, hs⟩ := hok
        have hstep : processStep reg s item = markDelivered s item.id := by
          simp [processStep, hg, hs]
        rw [hstep] at hr'
        obtain ⟨g, hq, hgid, hgs, _⟩ := processFold_shape reg rest (markDelivered s item.id)
        rw [hq] at hr'
        obtain ⟨r2, hr2, he⟩ := List.mem_map.mp hr'
        simp only [markDelivered, List.mem_map] at hr2
        obtain ⟨r3, hr3, he3⟩ := hr2
        have hid2 : r2.id = item.id := by
          rw [← he, hgid] at hid
          exact hid
        have hc : (r3.id == item.id) = true := by
          rw [← he3, markRow_id] at hid2
          exact beq_iff_eq.mpr hid2
        have hr2st : r2.status = "delivered" := by
          rw [← he3]
          unfold markRow
          rw [if_pos hc]
        rcases hgs r2 with h2 | h2
        · rw [← he, h2, hr2st]
        · rw [← he, h2]
      · exact ih (processStep reg s it) item hmem2 hok r' hr' hid

/-- An item is delivered after `processQueue` only if it was already
delivered or some processed item with its id was sent successfully. -/
theorem processFold_delivered_source (reg : Registry) (items : List QueueItem)
    (s : StoreState) :
    ∀ r' ∈ (items.foldl (processStep reg) s).queue, r'.status = "delivered" →
      (∃ r ∈ s.queue, r.id = r'.id ∧ r.status = "delivered") ∨
      (∃ item ∈ items, item.id = r'.id ∧ sendOk reg item) := by
  induction items generalizing s with
  | nil =>
      intro r' hr' hst
      exact Or.inl ⟨r', hr', rfl, hst⟩
  | cons it rest ih =>
      intro r' hr' hst
      simp only [List.foldl_cons] at hr'
      rcases processStep_cases reg s it with h | ⟨h, hok⟩
      · rw [h] at hr'
        rcases ih s r' hr' hst with h2 | h2
        · exact Or.inl h2
        · obtain ⟨item, hmem, hrest⟩ := h2
          exact Or.inr ⟨item, List.mem_cons_of_mem it hmem, hrest⟩
      · rw [h] at hr'
        rcases ih (markDelivered s it.id) r' hr' hst with h2 | h2
        · obtain ⟨r2, hr2, hid2, hst2⟩ := h2
          simp only [markDelivered, List.mem_map] at hr2
          obtain ⟨r3, hr3, he3⟩ := hr2
          by_cases hc : (r3.id == it.id) = true
          · refine Or.inr ⟨it, List.mem_cons_self it rest, ?_, hok⟩
            have h3id : r2.id = r3.id := by
              rw [← he3, markRow_id]
            have hbe : r3.id = it.id := beq_iff_eq.mp hc
            omega
          · refine Or.inl ⟨r3, hr3, ?_, ?_⟩
            · have : r2.id = r3.id := by
                rw [← he3, markRow_id]
              omega
            · rw [← he3] at hst2
              unfold markRow at hst2
              rw [if_neg hc] at hst2
              exact hst2
        · obtain ⟨item, hmem, hrest⟩ := h2
          exact Or.inr ⟨item, List.mem_cons_of_mem it hmem, hrest⟩

/-- The store state a successful broadcast leaves behind extends the
queue with freshly numbered rows and touches nothing below the
autoincrement counter. -/
theorem route_broadcast_state (reg : Registry) (s : StoreState) (msg : HubMessage)
    (s2 : StoreState) (atts : List Attempt)
    (h : route reg s msg = .ok (.broadcast s2 atts)) :
    ∃ xs, s2.queue = s.queue ++ fanoutRows s.nextQueueId xs := by
  unfold route at h
  by_cases hb : (msg.topic != "") = true
  · rw [if_pos hb] at h
    by_cases hex : topicExists s msg.topic = true
    · rw [if_neg (by simp [hex])] at h
      by_cases he : (getSubscribers (saveMessage s msg.topic
          (goMarshalNotification msg.topic msg.payload)).2 msg.topic).isEmpty
      · rw [if_pos he] at h
        injection h with h2
        injection h2 with h3 h4
        refine ⟨[], ?_⟩
        rw [← h3]
        simp [fanoutRows, saveMessage]
      · rw [if_neg (by simp [he])] at h
        rw [enqueueFanout_spec] at h
        injection h with h2
        injection h2 with h3 h4
        refine ⟨(getSubscribers (saveMessage s msg.topic
            (goMarshalNotification msg.topic msg.payload)).2 msg.topic).map
            (fun sub => ⟨(saveMessage s msg.topic
              (goMarshalNotification msg.topic msg.payload)).1, sub,
              goMarshalNotification msg.topic msg.payload⟩), ?_⟩
        rw [← h3]
        rfl
    · have hfalse : topicExists s msg.topic = false := by
        revert hex
        cases topicExists s msg.topic <;> simp
      rw [if_pos (by simp [hfalse])] at h
      exact absurd h (by simp)
  · rw [if_neg hb] at h
    cases hg : getConnector reg msg.provider with
    | none =>
        rw [hg] at h
        exact absurd h (by simp)
    | some c =>
        rw [hg] at h
        dsimp only at h
        by_cases ht : (msg.token == "") = true
        · rw [if_pos ht] at h
          exact absurd h (by simp)
        · rw [if_neg ht] at h
          cases hr : c msg.token msg.payload with
          | none =>
              rw [hr] at h
              injection h with h2
              exact RouteResult.noConfusion h2
          | some e =>
              rw [hr] at h
              exact absurd h (by simp)

/-- The store state a successful subscribe leaves behind extends the
queue with freshly numbered rows. -/
theorem subscribe_state_shape (s : StoreState) (topic : String) (sub : Subscriber)
    (s2 : StoreState) (atts : List Attempt)
    (h : subscribe s topic sub = .ok (s2, atts)) :
    ∃ xs, s2.queue = s.queue ++ fanoutRows s.nextQueueId xs := by
  unfold subscribe subscribeAux at h
  by_cases hex : topicExists s topic = true
  · rw [if_neg (by simp [hex])] at h
    unfold addSubscription at h
    by_cases hdup : (s.subscriptions.any fun r =>
        r.topic == topic && r.token == sub.token) = true
    · rw [if_pos hdup] at h
      exact absurd h (by simp)
    · rw [if_neg hdup] at h
      dsimp only at h
      rw [enqueueFanout_spec] at h
      injection h with h2
      injection h2 with h3 h4
      refine ⟨(getRecentMessages s topic 20).map (fun m => ⟨m.id, sub, m.payload⟩), ?_⟩
      rw [← h3]
  · have hfalse : topicExists s topic = false := by
      revert hex
      cases topicExists s topic <;> simp
    rw [if_pos (by simp [hfalse])] at h
    exact absurd h (by simp)

/-! ## Theorems -/

/-- C10: when the store's `GetTotalMessagesSent` or `GetSubscriptionCount`
fails, the hub's passthroughs drop the error and return the scanned zero
value, which is exactly what they return for a healthy empty store. -/
theorem hub_stats_swallow_store_errors :
    ∀ s : StoreState,
      hubGetTotalMessagesSent (getTotalMessagesSentR s true) = 0 ∧
      hubGetSubscriptionCount (getSubscriptionCountR s true) = 0 ∧
      hubGetTotalMessagesSent (getTotalMessagesSentR s true) =
        hubGetTotalMessagesSent (getTotalMessagesSentR emptyStore false) ∧
      hubGetSubscriptionCount (getSubscriptionCountR s true) =
        hubGetSubscriptionCount (getSubscriptionCountR emptyStore false) := by
  intro s
  refine ⟨rfl, rfl, ?_, ?_⟩ <;> rfl

/-- C6: `DeleteTopic` fails, naming the non-zero count, exactly when a
message or a subscription still references the topic; otherwise it
succeeds (also when no topic row exists) and the topic is no longer
listed, everything else untouched. -/
theorem deleteTopic_conflict_iff (s : StoreState) (name : String) :
    (0 < (s.messages.filter (fun m => m.topic == name)).length →
      deleteTopic s name = .error ("cannot delete topic: has " ++
        toString (s.messages.filter (fun m => m.topic == name)).length ++ " messages")) ∧
    ((s.messages.filter (fun m => m.topic == name)).length = 0 →
      0 < (s.subscriptions.filter (fun r => r.topic == name)).length →
      deleteTopic s name = .error ("cannot delete topic: has " ++
        toString (s.subscriptions.filter (fun r => r.topic == name)).length ++ " subscribers")) ∧
    ((s.messages.filter (fun m => m.topic == name)).length = 0 →
      (s.subscriptions.filter (fun r => r.topic == name)).length = 0 →
      ∃ s', deleteTopic s name = .ok s' ∧ name ∉ listTopics s' ∧
        s'.messages = s.messages ∧ s'.subscriptions = s.subscriptions ∧
        s'.queue = s.queue) ∧
    ((∃ s', deleteTopic s name = .ok s') ↔
      ((s.messages.filter (fun m => m.topic == name)).length = 0 ∧
       (s.subscriptions.filter (fun r => r.topic == name)).length = 0)) := by
  refine ⟨?_, ?_, ?_, ?_⟩
  · intro h
    simp only [deleteTopic, if_pos h]
  · intro h0 h
    simp only [deleteTopic, h0]
    simp [h]
  · intro h0 h1
    have hd : deleteTopic s name =
        .ok { s with topics := s.topics.filter (fun t => t != name) } := by
      simp only [deleteTopic, h0, h1]
      simp
    have hmem : name ∉ listTopics { s with topics := s.topics.filter (fun t => t != name) } := by
      simp [listTopics]
    exact ⟨_, hd, hmem, rfl, rfl, rfl⟩
  · constructor
    · rintro ⟨s', hs'⟩
      by_contra hc
      rcases Nat.eq_zero_or_pos (s.messages.filter (fun m => m.topic == name)).length with h0 | h0
      · rcases Nat.eq_zero_or_pos
          (s.subscriptions.filter (fun r => r.topic == name)).length with h1 | h1
        · exact hc ⟨h0, h1⟩
        · simp only [deleteTopic, h0] at hs'
          rw [if_pos h1] at hs'
          simp at hs'
      · simp only [deleteTopic, if_pos h0] at hs'
        simp at hs'
    · rintro ⟨h0, h1⟩
      have hd2 : deleteTopic s name =
          .ok { s with topics := s.topics.filter (fun t => t != name) } := by
        simp only [deleteTopic, h0, h1]
        simp
      exact ⟨_, hd2⟩

/-- C6 witness: a topic with one message is refused with the counted
error; deleting an absent topic from an empty store succeeds. -/
theorem deleteTopic_conflict_iff_witness :
    deleteTopic exC3State "a" = .error "cannot delete topic: has 1 messages" ∧
    ∃ s', deleteTopic emptyStore "x" = .ok s' ∧ "x" ∉ listTopics s' ∧
      s'.messages = emptyStore.messages ∧ s'.subscriptions = emptyStore.subscriptions ∧
      s'.queue = emptyStore.queue :=
  ⟨(deleteTopic_conflict_iff exC3State "a").1 (by decide),
   (deleteTopic_conflict_iff emptyStore "x").2.2.1 rfl rfl⟩

/-- C1: a broadcast `Route` to an existing topic appends exactly one
message (the wrapped envelope, with the fresh autoincrement id) and
creates exactly one pending queue item per current subscriber, each
referencing the new message id and that subscriber's token; with zero
subscribers it still succeeds and the message is still persisted. -/
theorem route_broadcast_fanout (reg : Registry) (s : StoreState) (msg : HubMessage)
    (h1 : msg.topic ≠ "") (h2 : topicExists s msg.topic = true) :
    ∃ s' atts, route reg s msg = .ok (.broadcast s' atts) ∧
      s'.messages = s.messages ++
        [⟨s.nextMessageId, msg.topic, goMarshalNotification msg.topic msg.payload, s.now⟩] ∧
      ∃ rows, s'.queue = s.queue ++ rows ∧
        rows.map (fun r => (r.messageID, r.token, r.status)) =
          (getSubscribers s msg.topic).map (fun sub =>
            (s.nextMessageId, sub.token, "pending")) := by
  have hb : (msg.topic != "") = true := by
    simp [h1]
  simp only [route, hb, if_true, h2, Bool.not_true, Bool.false_eq_true, if_false]
  by_cases he : (getSubscribers (saveMessage s msg.topic
      (goMarshalNotification msg.topic msg.payload)).2 msg.topic).isEmpty
  · rw [if_pos he]
    refine ⟨_, _, rfl, rfl, [], ?_, ?_⟩
    · simp [saveMessage]
    · have : getSubscribers s msg.topic = [] := List.isEmpty_iff.mp he
      rw [this]
      rfl
  · rw [if_neg (by simp [he])]
    rw [enqueueFanout_spec]
    refine ⟨_, _, rfl, rfl, _, rfl, ?_⟩
    rw [fanoutRows_map_triple]
    have hsub : getSubscribers (saveMessage s msg.topic
        (goMarshalNotification msg.topic msg.payload)).2 msg.topic =
        getSubscribers s msg.topic := rfl
    rw [hsub, List.map_map]
    rfl

/-- C1 witness: routing to topic `t` with one subscriber `(t, d)`. -/
theorem route_broadcast_fanout_witness :
    ∃ s' atts, route emptyRegistry exDupState ⟨"", "", "t", "\"p\""⟩ =
        .ok (.broadcast s' atts) ∧
      s'.messages = exDupState.messages ++
        [⟨exDupState.nextMessageId, "t", goMarshalNotification "t" "\"p\"", exDupState.now⟩] ∧
      ∃ rows, s'.queue = exDupState.queue ++ rows ∧
        rows.map (fun r => (r.messageID, r.token, r.status)) =
          (getSubscribers exDupState "t").map (fun sub =>
            (exDupState.nextMessageId, sub.token, "pending")) :=
  route_broadcast_fanout emptyRegistry exDupState ⟨"", "", "t", "\"p\""⟩
    (by decide) (by decide)

/-- C2 evaluation: with topic `t` existing and `(t, d)` already
subscribed, a second `Hub.Subscribe` for the same pair returns the
UNIQUE-constraint error (the spec, and the repository's own e2e test
step «Subscribe again (should be idempotent)», require success); the
table does keep exactly one row. -/
theorem subscribe_duplicate_returns_error :
    subscribe exDupState "t" ⟨"t", "d", "mock", "u"⟩ =
      .error "failed to subscribe: UNIQUE constraint failed: subscriptions.topic, subscriptions.token" ∧
    exDupState.subscriptions.length = 1 ∧
    (runSubscribe exDupState "t" ⟨"t", "d", "mock", "u"⟩).subscriptions =
      exDupState.subscriptions := by
  refine ⟨?_, rfl, ?_⟩ <;> rfl

/-- C5 counterexample: the claim promises success whenever the topic
exists (here `news`, with `k = 0` recent messages), but a subscriber
whose `(topic, token)` pair already exists gets an error back. -/
theorem subscribe_existing_topic_can_fail :
    topicExists exC5State "news" = true ∧
    (getRecentMessages exC5State "news" 20).length = 0 ∧
    ∀ r, subscribe exC5State "news" ⟨"news", "tok1", "mock", "alice"⟩ ≠ .ok r := by
  refine ⟨rfl, rfl, ?_⟩
  intro r h
  simp [subscribe, subscribeAux, topicExists, exC5State, addSubscription] at h

/-- C3 counterexample: one pending queue row whose token carries two
subscriptions is returned twice by `GetAllPendingMessages`, once per
subscription, with the provider of each joined subscription — not
exactly once with the provider of its own subscription. -/
theorem getAllPendingMessages_duplicates_row :
    (exC3State.queue.filter (fun q => q.status == "pending")).length = 1 ∧
    (getAllPendingMessages exC3State).map (fun i => (i.id, i.provider)) =
      [(1, "mock"), (1, "web")] := by
  refine ⟨rfl, ?_⟩
  rfl

/-- C7 counterexample: broadcasting the payload `\x7b"m": "hi"\x7d` (with an
interior space) persists the envelope with the payload compacted by
`json.Marshal`, not embedded verbatim. -/
theorem route_envelope_payload_not_verbatim :
    (runRoute emptyRegistry exC7State ⟨"", "", "t", "\x7b\"m\": \"hi\"\x7d"⟩).messages.map
        Message.payload =
      ["\x7b\"topic\":\"t\",\"payload\":\x7b\"m\":\"hi\"\x7d\x7d"] ∧
    "\x7b\"topic\":\"t\",\"payload\":\x7b\"m\":\"hi\"\x7d\x7d" ≠
      "\x7b\"topic\":\"t\",\"payload\":\x7b\"m\": \"hi\"\x7d\x7d" := by
  refine ⟨rfl, by decide⟩

/-- C8: the webhook connector POSTs the unwrapped inner payload when the
envelope parse succeeded with a non-empty inner payload and the raw
payload otherwise; it succeeds exactly when the POST completed with a
status in [200, 300); an empty URL fails without a POST. -/
theorem webhookSend_unwrap_and_status (url payload : String)
    (parsed : Option Notification) (post : String → String → Except Unit Nat) :
    (url = "" → webhookSend url payload parsed post =
        (none, .error "webhook url is missing")) ∧
    (url ≠ "" →
      (∀ n, parsed = some n → 0 < n.payload.length →
        (webhookSend url payload parsed post).1 = some n.payload) ∧
      (∀ n, parsed = some n → n.payload.length = 0 →
        (webhookSend url payload parsed post).1 = some payload) ∧
      (parsed = none → (webhookSend url payload parsed post).1 = some payload) ∧
      ((webhookSend url payload parsed post).2 = .ok () ↔
        ∃ body code, (webhookSend url payload parsed post).1 = some body ∧
          post url body = .ok code ∧ 200 ≤ code ∧ code < 300)) := by
  constructor
  · intro h
    simp [webhookSend, h]
  · intro h
    have hurl : (url == "") = false := by
      simp [h]
    have hfst : (webhookSend url payload parsed post).1 =
        some (webhookBody payload parsed) := by
      simp only [webhookSend, hurl, Bool.false_eq_true, if_false]
      cases post url (webhookBody payload parsed) with
      | error e => rfl
      | ok code =>
          dsimp only
          split <;> rfl
    refine ⟨?_, ?_, ?_, ?_⟩
    · intro n hn hlen
      rw [hfst, hn]
      simp [webhookBody, hlen]
    · intro n hn hlen
      rw [hfst, hn]
      simp [webhookBody, hlen]
    · intro hn
      rw [hn] at hfst
      rw [hn, hfst]
      rfl
    · simp only [webhookSend, hurl, Bool.false_eq_true, if_false]
      generalize webhookBody payload parsed = B
      cases hp : post url B with
      | error e =>
          dsimp only
          constructor
          · intro h2
            exact Except.noConfusion h2
          · rintro ⟨body, code, hb, hpost, _, _⟩
            injection hb with hb2
            subst hb2
            rw [hp] at hpost
            exact Except.noConfusion hpost
      | ok code =>
          dsimp only
          by_cases hlo : code < 200
          · rw [if_pos (by simp [hlo])]
            constructor
            · intro h2
              exact Except.noConfusion h2
            · rintro ⟨body, code2, hb, hpost, hge, hlt⟩
              injection hb with hb2
              subst hb2
              rw [hp] at hpost
              injection hpost with hc2
              omega
          · by_cases hhi : code ≥ 300
            · rw [if_pos (by simp [hlo, hhi])]
              constructor
              · intro h2
                exact Except.noConfusion h2
              · rintro ⟨body, code2, hb, hpost, hge, hlt⟩
                injection hb with hb2
                subst hb2
                rw [hp] at hpost
                injection hpost with hc2
                omega
            · rw [if_neg (by simp [hlo, hhi])]
              constructor
              · intro _
                exact ⟨B, code, rfl, hp, by omega, by omega⟩
              · intro _
                rfl

/-- C5 (amended): `Subscribe` to a missing topic returns TopicNotFound
with no subscription row added; to an existing topic, when the
`(topic, token)` pair is not yet subscribed, it succeeds and — once the
asynchronous replay settles — the `k` messages of
`GetRecentMessages(topic, 20)` have been enqueued as new pending queue
items for the subscriber's token, in chronological (oldest-first)
order; a failing replay lookup does not fail the subscribe call. -/
theorem subscribe_not_found_and_replay :
    (∀ (s : StoreState) (topic : String) (sub : Subscriber),
      topicExists s topic = false →
      subscribe s topic sub = .error errTopicNotFound ∧
      (runSubscribe s topic sub).subscriptions = s.subscriptions) ∧
    (∀ (s : StoreState) (topic : String) (sub : Subscriber),
      topicExists s topic = true →
      (∀ r ∈ s.subscriptions, ¬(r.topic = topic ∧ r.token = sub.token)) →
      ∃ s' atts, subscribe s topic sub = .ok (s', atts) ∧
        (∃ rows, s'.queue = s.queue ++ rows ∧
          rows.map (fun r => (r.messageID, r.token, r.status)) =
            (getRecentMessages s topic 20).map (fun m => (m.id, sub.token, "pending"))) ∧
        List.Pairwise (fun a b => a.createdAt ≤ b.createdAt)
          (getRecentMessages s topic 20)) ∧
    (∀ (s : StoreState) (topic : String) (sub : Subscriber) (e : String),
      topicExists s topic = true →
      (∀ r ∈ s.subscriptions, ¬(r.topic = topic ∧ r.token = sub.token)) →
      ∃ s' atts, subscribeAux s topic sub (.error e) = .ok (s', atts)) := by
  have hadd : ∀ (s : StoreState) (topic : String) (sub : Subscriber),
      (∀ r ∈ s.subscriptions, ¬(r.topic = topic ∧ r.token = sub.token)) →
      (s.subscriptions.any fun r => r.topic == topic && r.token == sub.token) = false := by
    intro s topic sub h
    rw [List.any_eq_false]
    intro r hr
    simp only [Bool.and_eq_true, beq_iff_eq, not_and]
    intro h1 h2
    exact h r hr ⟨h1, h2⟩
  refine ⟨?_, ?_, ?_⟩
  · intro s topic sub h
    constructor
    · simp [subscribe, subscribeAux, h]
    · simp [runSubscribe, subscribe, subscribeAux, h]
  · intro s topic sub hex hnew
    simp only [subscribe, subscribeAux, hex, Bool.not_true, Bool.false_eq_true, if_false,
      addSubscription, hadd s topic sub hnew]
    rw [enqueueFanout_spec]
    refine ⟨_, _, rfl, ⟨_, rfl, ?_⟩, getRecentMessages_sorted s topic 20⟩
    rw [fanoutRows_map_triple, List.map_map]
    rfl
  · intro s topic sub e hex hnew
    simp only [subscribeAux, hex, Bool.not_true, Bool.false_eq_true, if_false,
      addSubscription, hadd s topic sub hnew]
    exact ⟨_, _, rfl⟩

/-- C5 witness: subscribing token `d` to topic `r`, which holds two
messages, enqueues both replay items oldest-first. -/
theorem subscribe_replay_witness :
    ∃ s' atts, subscribe exReplayState "r" ⟨"r", "d", "mock", "u"⟩ = .ok (s', atts) ∧
      (∃ rows, s'.queue = exReplayState.queue ++ rows ∧
        rows.map (fun r => (r.messageID, r.token, r.status)) =
          (getRecentMessages exReplayState "r" 20).map (fun m =>
            (m.id, "d", "pending"))) ∧
      List.Pairwise (fun a b => a.createdAt ≤ b.createdAt)
        (getRecentMessages exReplayState "r" 20) :=
  subscribe_not_found_and_replay.2.1 exReplayState "r" ⟨"r", "d", "mock", "u"⟩
    (by decide) (by decide)

/-- C3 (amended): `GetAllPendingMessages` returns one item per pair of a
pending queue row and a subscription sharing its token — so a row whose
token has several subscriptions appears once per subscription, carrying
each joined subscription's provider, and a row whose token has none is
omitted — ordered by the source message's `created_at` ascending. -/
theorem getAllPendingMessages_join_spec :
    (∀ (s : StoreState) (item : QueueItem), item ∈ getAllPendingMessages s →
      item.status = "pending" ∧
      ∃ q ∈ s.queue, q.status = "pending" ∧ item.id = q.id ∧
        item.messageID = q.messageID ∧ item.token = q.token ∧
        (∃ sub ∈ s.subscriptions, sub.token = q.token ∧ item.provider = sub.provider) ∧
        (∃ m ∈ s.messages, m.id = q.messageID ∧ item.payload = m.payload)) ∧
    (∀ (s : StoreState) (q : QueueRow) (m : Message) (sub : Subscriber),
      q ∈ s.queue → q.status = "pending" → m ∈ s.messages → m.id = q.messageID →
      sub ∈ s.subscriptions → sub.token = q.token →
      ∃ item ∈ getAllPendingMessages s, item.id = q.id ∧ item.provider = sub.provider ∧
        item.payload = m.payload) ∧
    (∀ s : StoreState, ∃ l, List.Pairwise rowLE l ∧
      getAllPendingMessages s = l.map Prod.snd ∧
      ∀ p ∈ l, ∃ m ∈ s.messages, m.id = p.2.messageID ∧ p.1 = m.createdAt) := by
  refine ⟨?_, ?_, ?_⟩
  · intro s item hitem
    simp only [getAllPendingMessages, List.mem_map] at hitem
    obtain ⟨p, hp, hsnd⟩ := hitem
    rw [List.mem_insertionSort] at hp
    obtain ⟨q, hq, m, hm, sub, hsub, h1, h2, h3, hpe⟩ := mem_pendingJoinRows.mp hp
    subst hpe
    dsimp only at hsnd
    subst hsnd
    exact ⟨h3, q, hq, h3, rfl, rfl, rfl,
      ⟨sub, hsub, h2.symm, rfl⟩, ⟨m, hm, h1.symm, rfl⟩⟩
  · intro s q m sub hq h2 hm h1 hsub ht
    refine ⟨⟨q.id, q.messageID, q.token, sub.provider, q.status, m.payload⟩, ?_, rfl, rfl, rfl⟩
    simp only [getAllPendingMessages, List.mem_map]
    refine ⟨(m.createdAt, ⟨q.id, q.messageID, q.token, sub.provider, q.status, m.payload⟩),
      ?_, rfl⟩
    rw [List.mem_insertionSort]
    exact mem_pendingJoinRows.mpr ⟨q, hq, m, hm, sub, hsub, h1.symm, ht.symm, h2, rfl⟩
  · intro s
    refine ⟨(pendingJoinRows s).insertionSort rowLE,
      List.sorted_insertionSort rowLE _, rfl, ?_⟩
    intro p hp
    rw [List.mem_insertionSort] at hp
    obtain ⟨q, hq, m, hm, sub, hsub, h1, h2, h3, hpe⟩ := mem_pendingJoinRows.mp hp
    subst hpe
    exact ⟨m, hm, h1.symm, rfl⟩

/-- C3 witness: the pending row of `exC3State` joined with its `mock`
subscription is reported with that subscription's provider. -/
theorem getAllPendingMessages_join_spec_witness :
    ∃ item ∈ getAllPendingMessages exC3State, item.id = (1 : Int) ∧
      item.provider = "mock" ∧ item.payload = "payloadA" :=
  getAllPendingMessages_join_spec.2.1 exC3State ⟨1, 1, "d", "pending"⟩
    ⟨1, "a", "payloadA", 5⟩ ⟨"a", "d", "mock", "u"⟩
    (by decide) rfl (by decide) rfl (by decide) rfl

/-- C7 (amended): a broadcast persists, and hands every scheduled
connector attempt, exactly the envelope bytes
`\x7b"topic":T,"payload":P'\x7d` where `P'` is the publisher payload after
Go's `json.Marshal` compaction (so verbatim whenever the payload is
already compact and free of `<`, `>`, `&`); a direct send hands the
connector exactly the raw publisher payload, with no persistence and no
queue item. -/
theorem route_envelope_bytes :
    (∀ (reg : Registry) (s : StoreState) (msg : HubMessage),
      msg.topic ≠ "" → topicExists s msg.topic = true →
      ∃ s' atts, route reg s msg = .ok (.broadcast s' atts) ∧
        s'.messages.map Message.payload =
          s.messages.map Message.payload ++ [goMarshalNotification msg.topic msg.payload] ∧
        (∀ a ∈ atts, a.payload = goMarshalNotification msg.topic msg.payload) ∧
        (goCompact msg.payload = msg.payload →
          goMarshalNotification msg.topic msg.payload =
            "\x7b\"topic\":" ++ goQuote msg.topic ++ ",\"payload\":" ++
              msg.payload ++ "\x7d")) ∧
    (∀ (reg : Registry) (s : StoreState) (msg : HubMessage) (c : Connector),
      msg.topic = "" → getConnector reg msg.provider = some c → msg.token ≠ "" →
      route reg s msg = (match c msg.token msg.payload with
        | none => .ok (.direct msg.token msg.payload)
        | some e => .error e) ∧
      runRoute reg s msg = s) := by
  constructor
  · intro reg s msg h1 h2
    have hb : (msg.topic != "") = true := by
      simp [h1]
    simp only [route, hb, if_true, h2, Bool.not_true, Bool.false_eq_true, if_false]
    by_cases he : (getSubscribers (saveMessage s msg.topic
        (goMarshalNotification msg.topic msg.payload)).2 msg.topic).isEmpty
    · rw [if_pos he]
      refine ⟨_, _, rfl, by simp [saveMessage], ?_, ?_⟩
      · intro a ha
        cases ha
      · intro hc
        simp [goMarshalNotification, hc]
    · rw [if_neg (by simp [he])]
      rw [enqueueFanout_spec]
      refine ⟨_, _, rfl, by simp [saveMessage], ?_, ?_⟩
      · intro a ha
        obtain ⟨f, hf, hp⟩ := fanoutAtts_mem_payload _ _ a ha
        rw [hp]
        obtain ⟨sub, _, hfe⟩ := List.mem_map.mp hf
        rw [← hfe]
      · intro hc
        simp [goMarshalNotification, hc]
  · intro reg s msg c h1 hc ht
    have hb : (msg.topic != "") = false := by
      simp [h1]
    have htb : (msg.token == "") = false := by
      simp [ht]
    constructor
    · simp only [route, hb, Bool.false_eq_true, if_false, getConnector] at *
      rw [hc]
      simp only [htb, Bool.false_eq_true, if_false]
    · cases hr : c msg.token msg.payload with
      | none =>
          simp only [runRoute, route, hb, Bool.false_eq_true, if_false]
          rw [hc]
          simp [htb, hr]
      | some e =>
          simp only [runRoute, route, hb, Bool.false_eq_true, if_false]
          rw [hc]
          simp [htb, hr]

/-- C7 (amended) witness: broadcasting the already-compact payload
`"p"` to topic `t`. -/
theorem route_envelope_bytes_witness :
    ∃ s' atts, route emptyRegistry exC7State ⟨"", "", "t", "\"p\""⟩ =
        .ok (.broadcast s' atts) ∧
      s'.messages.map Message.payload =
        exC7State.messages.map Message.payload ++ [goMarshalNotification "t" "\"p\""] ∧
      (∀ a ∈ atts, a.payload = goMarshalNotification "t" "\"p\"") ∧
      (goCompact "\"p\"" = "\"p\"" →
        goMarshalNotification "t" "\"p\"" =
          "\x7b\"topic\":" ++ goQuote "t" ++ ",\"payload\":" ++ "\"p\"" ++ "\x7d") :=
  route_envelope_bytes.1 emptyRegistry exC7State ⟨"", "", "t", "\"p\""⟩
    (by decide) (by decide)

/-- C9: after `ClearTopicMessages(T)` no message of `T` and no queue item
referencing a message of `T` remains; the queue deletion is evaluated
against the pre-deletion messages inside the same transaction (so the
every-item-references-a-message invariant is preserved); messages and
queue items of other topics, the subscriptions and the topics table are
untouched. -/
theorem clearTopicMessages_spec (s : StoreState) (topic : String) :
    (∀ m ∈ (clearTopicMessages s topic).messages, m.topic ≠ topic) ∧
    (∀ q ∈ (clearTopicMessages s topic).queue,
      ¬∃ m ∈ s.messages, m.topic = topic ∧ m.id = q.messageID) ∧
    (∀ m ∈ s.messages, m.topic ≠ topic → m ∈ (clearTopicMessages s topic).messages) ∧
    (∀ m ∈ (clearTopicMessages s topic).messages, m ∈ s.messages) ∧
    (∀ q ∈ s.queue, (¬∃ m ∈ s.messages, m.topic = topic ∧ m.id = q.messageID) →
      q ∈ (clearTopicMessages s topic).queue) ∧
    (∀ q ∈ (clearTopicMessages s topic).queue, q ∈ s.queue) ∧
    (clearTopicMessages s topic).subscriptions = s.subscriptions ∧
    (clearTopicMessages s topic).topics = s.topics ∧
    ((∀ q ∈ s.queue, ∃ m ∈ s.messages, m.id = q.messageID) →
      ∀ q ∈ (clearTopicMessages s topic).queue,
        ∃ m ∈ (clearTopicMessages s topic).messages, m.id = q.messageID) := by
  have hm : ∀ m : Message, m ∈ (clearTopicMessages s topic).messages ↔
      m ∈ s.messages ∧ m.topic ≠ topic := by
    intro m
    simp [clearTopicMessages, List.mem_filter]
  have hq : ∀ q : QueueRow, q ∈ (clearTopicMessages s topic).queue ↔
      q ∈ s.queue ∧ ¬∃ m ∈ s.messages, m.topic = topic ∧ m.id = q.messageID := by
    intro q
    simp [clearTopicMessages, List.mem_filter, List.any_eq_true]
  refine ⟨?_, ?_, ?_, ?_, ?_, ?_, rfl, rfl, ?_⟩
  · intro m hmem
    exact ((hm m).mp hmem).2
  · intro q hmem
    exact ((hq q).mp hmem).2
  · intro m hmem hne
    exact (hm m).mpr ⟨hmem, hne⟩
  · intro m hmem
    exact ((hm m).mp hmem).1
  · intro q hmem hno
    exact (hq q).mpr ⟨hmem, hno⟩
  · intro q hmem
    exact ((hq q).mp hmem).1
  · intro hinv q hmem
    obtain ⟨hqs, hno⟩ := (hq q).mp hmem
    obtain ⟨m, hms, hid⟩ := hinv q hqs
    refine ⟨m, (hm m).mpr ⟨hms, ?_⟩, hid⟩
    intro he
    exact hno ⟨m, hms, he, hid⟩

/-- C9 witness: clearing topic `a` in a two-topic store keeps the
queue-to-message invariant and leaves no reference to `a`'s messages. -/
theorem clearTopicMessages_spec_witness :
    (∀ q ∈ (clearTopicMessages exC9State "a").queue,
      ¬∃ m ∈ exC9State.messages, m.topic = "a" ∧ m.id = q.messageID) ∧
    (∀ q ∈ (clearTopicMessages exC9State "a").queue,
      ∃ m ∈ (clearTopicMessages exC9State "a").messages, m.id = q.messageID) :=
  ⟨(clearTopicMessages_spec exC9State "a").2.1,
   (clearTopicMessages_spec exC9State "a").2.2.2.2.2.2.2.2 (by decide)⟩

/-- C4: a queue item's status only ever moves pending → delivered and
never back.  (a) `attemptDelivery` calls `MarkDelivered` exactly when
the connector send returned success, and leaves the state unchanged on
a missing connector or a send error; (b) `processQueue` delivers every
item whose send succeeds, and an item is delivered afterwards only if
it already was or some processed item with its id was sent
successfully; (c) across every mutating operation of the store and the
hub, every surviving queue row's status moves only forward. -/
theorem queue_status_pending_to_delivered_only :
    (∀ (reg : Registry) (s : StoreState) (sub : Subscriber) (payload : String) (qid : Int),
      (getConnector reg sub.provider = none →
        attemptDelivery reg s sub payload qid = s) ∧
      (∀ c, getConnector reg sub.provider = some c → c sub.token payload = none →
        attemptDelivery reg s sub payload qid = markDelivered s qid) ∧
      (∀ c e, getConnector reg sub.provider = some c → c sub.token payload = some e →
        attemptDelivery reg s sub payload qid = s)) ∧
    (∀ (reg : Registry) (s : StoreState),
      (∀ item ∈ getAllPendingMessages s, sendOk reg item →
        ∀ r' ∈ (processQueue reg s).queue, r'.id = item.id → r'.status = "delivered") ∧
      (∀ r' ∈ (processQueue reg s).queue, r'.status = "delivered" →
        (∃ r ∈ s.queue, r.id = r'.id ∧ r.status = "delivered") ∨
        (∃ item ∈ getAllPendingMessages s, item.id = r'.id ∧ sendOk reg item))) ∧
    (∀ (op : Op) (s : StoreState), WFQueue s → onlyForward s (applyOp op s)) := by
  refine ⟨?_, ?_, ?_⟩
  · intro reg s sub payload qid
    refine ⟨?_, ?_, ?_⟩
    · intro h
      simp [attemptDelivery, h]
    · intro c hc hs
      simp [attemptDelivery, hc, hs]
    · intro c e hc hs
      simp [attemptDelivery, hc, hs]
  · intro reg s
    exact ⟨processFold_marks reg _ s, processFold_delivered_source reg _ s⟩
  · intro op s hwf
    cases op with
    | createTopic name =>
        cases hd : createTopic s name with
        | error e =>
            have hs : applyOp (Op.createTopic name) s = s := by
              simp [applyOp, hd]
            rw [hs]
            exact onlyForward_subset hwf (fun r h => h)
        | ok t =>
            have hs : applyOp (Op.createTopic name) s = t := by
              simp [applyOp, hd]
            have hq : t.queue = s.queue := by
              unfold createTopic at hd
              split at hd
              · exact absurd hd (by simp)
              · injection hd with h2
                rw [← h2]
            rw [hs]
            exact onlyForward_subset hwf (fun r h => hq ▸ h)
    | deleteTopic name =>
        cases hd : deleteTopic s name with
        | error e =>
            have hs : applyOp (Op.deleteTopic name) s = s := by
              simp [applyOp, hd]
            rw [hs]
            exact onlyForward_subset hwf (fun r h => h)
        | ok t =>
            have hs : applyOp (Op.deleteTopic name) s = t := by
              simp [applyOp, hd]
            have hq : t.queue = s.queue := by
              unfold deleteTopic at hd
              dsimp only at hd
              split at hd
              · exact absurd hd (by simp)
              · split at hd
                · exact absurd hd (by simp)
                · injection hd with h2
                  rw [← h2]
            rw [hs]
            exact onlyForward_subset hwf (fun r h => hq ▸ h)
    | addSubscription topic token provider username =>
        cases hd : addSubscription s topic token provider username with
        | error e =>
            have hs : applyOp (Op.addSubscription topic token provider username) s = s := by
              simp [applyOp, hd]
            rw [hs]
            exact onlyForward_subset hwf (fun r h => h)
        | ok t =>
            have hs : applyOp (Op.addSubscription topic token provider username) s = t := by
              simp [applyOp, hd]
            have hq : t.queue = s.queue := by
              unfold addSubscription at hd
              split at hd
              · exact absurd hd (by simp)
              · injection hd with h2
                rw [← h2]
            rw [hs]
            exact onlyForward_subset hwf (fun r h => hq ▸ h)
    | removeSubscription topic token =>
        exact onlyForward_subset hwf (fun r h => h)
    | clearTopicSubscribers topic =>
        exact onlyForward_subset hwf (fun r h => h)
    | saveMessage topic payload =>
        exact onlyForward_subset hwf (fun r h => h)
    | clearTopicMessages topic =>
        exact onlyForward_subset hwf (fun r h => List.mem_of_mem_filter h)
    | enqueueMessage messageID token =>
        refine onlyForward_append hwf (rfl :
          (applyOp (Op.enqueueMessage messageID token) s).queue =
            s.queue ++ [⟨s.nextQueueId, messageID, token, "pending"⟩]) ?_
        intro r hr
        rcases List.mem_singleton.mp hr with rfl
        exact le_refl _
    | markDelivered queueID =>
        exact onlyForward_markDelivered hwf queueID
    | route reg msg =>
        have happ : applyOp (Op.route reg msg) s = runRoute reg s msg := rfl
        rw [happ]
        cases hr : route reg s msg with
        | error e =>
            have hs : runRoute reg s msg = s := by
              simp [runRoute, hr]
            rw [hs]
            exact onlyForward_subset hwf (fun r h => h)
        | ok res =>
            cases res with
            | direct tok p =>
                have hs : runRoute reg s msg = s := by
                  simp [runRoute, hr]
                rw [hs]
                exact onlyForward_subset hwf (fun r h => h)
            | broadcast s2 atts =>
                have hs : runRoute reg s msg = s2 := by
                  simp [runRoute, hr]
                rw [hs]
                obtain ⟨xs, hq⟩ := route_broadcast_state reg s msg s2 atts hr
                exact onlyForward_append hwf hq (fanoutRows_id_ge _ _)
    | subscribe topic sub =>
        have happ : applyOp (Op.subscribe topic sub) s = runSubscribe s topic sub := rfl
        rw [happ]
        cases hr : subscribe s topic sub with
        | error e =>
            have hs : runSubscribe s topic sub = s := by
              simp [runSubscribe, hr]
            rw [hs]
            exact onlyForward_subset hwf (fun r h => h)
        | ok p =>
            obtain ⟨s2, atts⟩ := p
            have hs : runSubscribe s topic sub = s2 := by
              simp [runSubscribe, hr]
            rw [hs]
            obtain ⟨xs, hq⟩ := subscribe_state_shape s topic sub s2 atts hr
            exact onlyForward_append hwf hq (fanoutRows_id_ge _ _)
    | attemptDelivery reg sub payload queueID =>
        cases hg : getConnector reg sub.provider with
        | none =>
            have hs : applyOp (Op.attemptDelivery reg sub payload queueID) s = s := by
              simp [applyOp, attemptDelivery, hg]
            rw [hs]
            exact onlyForward_subset hwf (fun r h => h)
        | some c =>
            cases hsend : c sub.token payload with
            | none =>
                have hs : applyOp (Op.attemptDelivery reg sub payload queueID) s =
                    markDelivered s queueID := by
                  simp [applyOp, attemptDelivery, hg, hsend]
                rw [hs]
                exact onlyForward_markDelivered hwf queueID
            | some e =>
                have hs : applyOp (Op.attemptDelivery reg sub payload queueID) s = s := by
                  simp [applyOp, attemptDelivery, hg, hsend]
                rw [hs]
                exact onlyForward_subset hwf (fun r h => h)
    | processQueue reg =>
        exact onlyForward_processQueue hwf reg

/-- C4 witness: a delivery attempt with a succeeding connector marks the
queue item, and a full operation run only moves statuses forward. -/
theorem queue_status_pending_to_delivered_only_witness :
    attemptDelivery (registerConnector emptyRegistry "mock" (fun _ _ => none))
        exC3State ⟨"a", "d", "mock", "u"⟩ "pl" 1 = markDelivered exC3State 1 ∧
    (WFQueue exC9State ∧
      onlyForward exC9State (applyOp (Op.markDelivered 1) exC9State)) :=
  ⟨(queue_status_pending_to_delivered_only.1
      (registerConnector emptyRegistry "mock" (fun _ _ => none))
      exC3State ⟨"a", "d", "mock", "u"⟩ "pl" 1).2.1 (fun _ _ => none) rfl rfl,
   by decide,
   queue_status_pending_to_delivered_only.2.2 (Op.markDelivered 1) exC9State (by decide)⟩

/-- C8 witness: a wrapped payload with a non-empty inner part is
unwrapped, and a 204 response is a success. -/
theorem webhookSend_unwrap_and_status_witness :
    (webhookSend "u" "raw" (some ⟨"t", "inner"⟩) (fun _ _ => .ok 204)).1 = some "inner" ∧
    (webhookSend "u" "raw" (some ⟨"t", "inner"⟩) (fun _ _ => .ok 204)).2 = .ok () := by
  have h := (webhookSend_unwrap_and_status "u" "raw" (some ⟨"t", "inner"⟩)
    (fun _ _ => .ok 204)).2 (by decide)
  have h1 := h.1 ⟨"t", "inner"⟩ rfl (by decide)
  exact ⟨h1, h.2.2.2.mpr ⟨"inner", 204, h1, rfl, by omega, by omega⟩⟩

end NoSpam
